import Mathlib

/-!
Shallow embedding of the STAAD std-file codec core from
`DataFusr/fem_STAADutils.py`, together with theorems checking the
natural-language specification against it.

Python strings are modelled as `List Char`; Python `float` values as `ℚ`;
fallible operations (`IndexError`, `ValueError`, `NotImplementedError`)
as `Option`/`Except`.
-/

/-- Python string. -/
abbrev PyStr := List Char

/-- Python `s.split(" ")`: split at every single space, keeping empty pieces. -/
def splitSpace (s : PyStr) : List PyStr :=
  s.foldr (fun c r => if c = ' ' then [] :: r else (c :: r.headD []) :: r.tail) [[]]

/-- Substring test, Python `needle in hay` / `re.search` on a literal pattern. -/
def hasSub (needle hay : PyStr) : Bool :=
  (List.range (hay.length + 1)).any (fun i => ((hay.drop i).take needle.length) == needle)

/-- Decimal digit value of a character, if it is a digit. -/
def digitVal (c : Char) : Option ℕ :=
  if 48 ≤ c.toNat ∧ c.toNat ≤ 57 then some (c.toNat - 48) else none

/-- Parse a nonempty all-digit string as a natural number. -/
def parseNatAux : List Char → ℕ → Option ℕ
  | [], acc => some acc
  | c :: cs, acc =>
    match digitVal c with
    | some d => parseNatAux cs (acc * 10 + d)
    | none => none

/-- Parse a nonempty all-digit string as a natural number (`int` on a numeral). -/
def parseNat (s : PyStr) : Option ℕ :=
  match s with
  | [] => none
  | _ => parseNatAux s 0

/-- Decimal rendering of a natural number, fuel-driven so it reduces by `decide`. -/
def natCharsAux : ℕ → ℕ → List Char
  | 0, _ => []
  | fuel + 1, n =>
    if n < 10 then [Char.ofNat (48 + n)]
    else natCharsAux fuel (n / 10) ++ [Char.ofNat (48 + n % 10)]

/-- Decimal rendering of a natural number, Python `str(n)`. -/
def natChars (n : ℕ) : List Char := natCharsAux (n + 1) n

/-- Token of a member-list clause: a decimal id, the literal `TO`, the empty
token produced by repeated spaces, or any other word. -/
inductive STok where
  | num (n : ℕ)
  | to
  | emptyTok
  | other (s : PyStr)
deriving DecidableEq

/-- Rendering of a token back to its source string. -/
def renderTok : STok → PyStr
  | .num n => natChars n
  | .to => "TO".toList
  | .emptyTok => []
  | .other s => s

/-- Classification of one space-separated word as a token. -/
def classifyTok (s : PyStr) : STok :=
  if s = [] then .emptyTok
  else if s = "TO".toList then .to
  else
    match parseNat s with
    | some n => if natChars n = s then .num n else .other s
    | none => .other s

/-- Tokenization of a clause string: split on single spaces and classify. -/
def tokenizeClause (s : PyStr) : List STok := (splitSpace s).map classifyTok

/-- Python `int` applied to a token; raises (`none`) unless it is a numeral. -/
def pyIntTok : STok → Option ℕ
  | .num n => some n
  | _ => none

/-- Loop body of `RawStdFile.detail_members`: walk the token list; a token other
than `TO` is appended as is; at `TO` the numbers strictly between the previous
token (Python `string_list[j-1]`, which wraps to the last element when the
`TO` is first) and the next token (`string_list[j+1]`, `IndexError` when
absent) are appended.  `prev` carries the previous token. -/
def detailGo (orig : List STok) : Option STok → List STok → Option (List STok)
  | _, [] => some []
  | prev, t :: rest =>
    if t = STok.to then
      match (match prev with
             | some p => pyIntTok p
             | none => orig.getLast?.bind pyIntTok),
            rest.head?.bind pyIntTok with
      | some a, some b =>
        (detailGo orig (some t) rest).map
          (fun tail => (List.range' (a + 1) (b - (a + 1))).map STok.num ++ tail)
      | _, _ => none
    else
      (detailGo orig (some t) rest).map (fun tail => t :: tail)

/-- `RawStdFile.detail_members`: expand `TO`-ranges, then remove all empty
tokens (the trailing `while "" in members: members.remove("")`). -/
def detail_members (ts : List STok) : Option (List STok) :=
  (detailGo ts none ts).map (List.filter (fun t => !(t == STok.emptyTok)))

/-- Python `sorted` on a list of naturals (ascending). -/
def sortNat (l : List ℕ) : List ℕ := List.insertionSort (fun a b => a ≤ b) l

/-- One step of the run-building loop of `_check_duplicate_entries`
(source lines 307-317): `acc` is the string built so far, `i` the index into
the sorted member list. -/
def compressStep (member : List ℕ) (acc : PyStr) (i : ℕ) : PyStr :=
  let lmb := member.length
  let mi := member.getD i 0
  if acc = [] then acc ++ natChars mi
  else if i = lmb - 1 ∧ mi = member.getD (i - 1) 0 + 1 then
    acc ++ " TO ".toList ++ natChars mi
  else if i = lmb - 1 then acc ++ " ".toList ++ natChars mi
  else if i < lmb - 1 ∧ mi = member.getD (i - 1) 0 + 1 ∧ mi + 1 ≠ member.getD (i + 1) 0 then
    acc ++ " TO ".toList ++ natChars mi
  else if i < lmb - 1 ∧ mi ≠ member.getD (i - 1) 0 + 1 then
    acc ++ " ".toList ++ natChars mi
  else acc

/-- Run builder of `_check_duplicate_entries`: sort the member ids and build
the compressed `a TO b` clause string. -/
def compress_runs (memb : List ℕ) : PyStr :=
  let member := sortNat memb
  (List.range member.length).foldl (compressStep member) []

/-- Wrapping loop of `check_length_of_line` (source lines 410-434): while the
remaining string exceeds 76 characters, take the first 76, find the last space
in that prefix (via the reversed string; a missing space is Python
`ValueError`, modelled as `none`), cut just after it, append the continuation
marker and continue with the rest.  `fuel` only drives the recursion. -/
def wrapLoop : ℕ → PyStr → Option (List PyStr)
  | 0, _ => none
  | fuel + 1, s =>
    if s.length > 76 then
      let str_in_range := s.take 76
      let ridx := List.findIdx (fun c => c == ' ') str_in_range.reverse
      if ridx = str_in_range.length then none
      else
        let loc := str_in_range.length - ridx
        (wrapLoop fuel (str_in_range.drop loc ++ s.drop 76)).map
          (fun rest => (str_in_range.take loc ++ ['-']) :: rest)
    else some [s]

/-- `check_length_of_line`: strings of at most 78 characters pass through on a
single line; longer strings go through the wrapping loop. -/
def check_length_of_line (s : PyStr) : Option (List PyStr) :=
  if s.length > 78 then wrapLoop (s.length + 1) s else some [s]

/-- Every emitted line except the last ends in the continuation marker. -/
def nonFinalDash : List PyStr → Bool
  | [] => true
  | [_] => true
  | l :: ls => (l.getLast? == some '-') && nonFinalDash ls

/-- Rejoining rule: strip the trailing marker of every non-final line and
concatenate (the marker is always preceded by the space that was cut at, so
no extra space is inserted). -/
def rejoinWrapped : List PyStr → PyStr
  | [] => []
  | [l] => l
  | l :: ls => l.dropLast ++ rejoinWrapped ls

/-- Python negative indexing from the end, `s[-k]`: `IndexError` (`none`)
when the string is shorter than `k`. -/
def pyCharFromEnd (l : PyStr) (k : ℕ) : Option Char :=
  if k ≤ l.length then (l.drop (l.length - k)).head? else none

/-- Python `lines[i - 1]`: the previous physical line, wrapping to the last
line of the whole list when `i = 0` (negative indexing); `none` models the
`IndexError` on an empty list. -/
def prevPhysical (orig : List PyStr) : Option PyStr → Option PyStr
  | some p => some p
  | none => orig.getLast?

/-- Merge step used by the continuation branches of `read_file`: strip `strip`
characters from the open logical line, choose the extra space from the
character `c` that preceded the marker, and append the current line. -/
def mergeInto (acc : List PyStr) (strip : ℕ) (c : Option Char) (l : PyStr) :
    Option (List PyStr) :=
  match acc, c with
  | top :: accRest, some ch =>
    some ((List.dropLast^[strip] top ++ (if ch = ' ' then [] else [' ']) ++ l) :: accRest)
  | _, _ => none

/-- Loop of `RawStdFile.read_file` (source lines 750-778).  `orig` is the full
physical line list (for Python `lines[-1]` when `i = 0`), `prev` the previous
physical line, `acc` the logical lines built so far, in reverse.  Branches in
source order: a line containing `*` or blank is dropped; a line whose first
token or first character is `*` is dropped; if the previous physical line ends
in `-` and does not contain `TITLE`, or ends in `- `, the line is merged into
the last logical line with the source's spacing rule; otherwise the line is
appended. -/
def readFileGo (orig : List PyStr) (prev : Option PyStr) (acc : List PyStr) :
    List PyStr → Option (List PyStr)
  | [] => some acc.reverse
  | l :: rest =>
    if l.contains '*' || l == [] then
      readFileGo orig (some l) acc rest
    else if (splitSpace l).headD [] == ['*'] || l.headD ' ' == '*' then
      readFileGo orig (some l) acc rest
    else
      match prevPhysical orig prev with
      | none => none
      | some pv =>
        if pv.drop (pv.length - 1) == ['-'] && !hasSub "TITLE".toList pv then
          match mergeInto acc 1 (pyCharFromEnd pv 2) l with
          | some acc2 => readFileGo orig (some l) acc2 rest
          | none => none
        else if pv.drop (pv.length - 2) == ['-', ' '] then
          match mergeInto acc 2 (pyCharFromEnd pv 3) l with
          | some acc2 => readFileGo orig (some l) acc2 rest
          | none => none
        else readFileGo orig (some l) (l :: acc) rest

/-- `RawStdFile.read_file` on an in-memory list of physical lines. -/
def read_file (lines : List PyStr) : Option (List PyStr) :=
  readFileGo lines none [] lines

/-- A line that cannot act as a continuation source: it ends neither in the
bare marker nor in marker-plus-space. -/
def noCont (l : PyStr) : Bool :=
  !(l.drop (l.length - 1) == ['-']) && !(l.drop (l.length - 2) == ['-', ' '])

/-- A line the joiner keeps: not blank and free of the comment character. -/
def keptLine (l : PyStr) : Bool := !(l.contains '*' || l == [])

/-- Python exceptions raised by the decoder. -/
inductive StaadErr where
  | notImplemented (msg : PyStr)
  | indexErr
  | valueErr
  | keyErr
deriving DecidableEq

instance {ε α : Type} [DecidableEq ε] [DecidableEq α] : DecidableEq (Except ε α) :=
  fun a b =>
    match a, b with
    | .ok x, .ok y =>
      if h : x = y then isTrue (by rw [h])
      else isFalse (fun hh => h (Except.ok.inj hh))
    | .error e, .error f =>
      if h : e = f then isTrue (by rw [h])
      else isFalse (fun hh => h (Except.error.inj hh))
    | .ok _, .error _ => isFalse (fun hh => Except.noConfusion hh)
    | .error _, .ok _ => isFalse (fun hh => Except.noConfusion hh)

/-- Declared units of the document (`self.units['unit']`). -/
structure UnitRec where
  unit_dimension : PyStr
  unit_force : PyStr
  convert_factor_force : ℚ
deriving DecidableEq

/-- Loop of `RawStdFile.get_unit` (source lines 905-923): every line containing
the substring UNIT updates the stored unit; force unit KN gives factor 1000, N
gives 1, anything else raises `NotImplementedError`; a missing second or third
token is an `IndexError`. -/
def get_unit_loop (u : UnitRec) : List PyStr → Except StaadErr UnitRec
  | [] => .ok u
  | l :: rest =>
    if hasSub "UNIT".toList l then
      match (splitSpace l).get? 1, (splitSpace l).get? 2 with
      | some ud, some uf =>
        if uf = "KN".toList then get_unit_loop ⟨ud, uf, 1000⟩ rest
        else if uf = "N".toList then get_unit_loop ⟨ud, uf, 1⟩ rest
        else .error (.notImplemented ("ERROR: Only kiloNewton or Newton force are implemented. "
          ++ "Please check the unit of force in .std file again.").toList)
      | _, _ => .error .indexErr
    else get_unit_loop u rest

/-- `RawStdFile.get_unit`: default meters / kilonewtons with force factor 1000
(source lines 896-903), then scan every line. -/
def get_unit (std_data : List PyStr) : Except StaadErr UnitRec :=
  get_unit_loop ⟨"METER".toList, "kN".toList, 1000⟩ std_data

/-- A 3-vector of coordinates. -/
abbrev Vec3 := ℚ × ℚ × ℚ

/-- Entry of `RawStdFile.member_incidences`: node ids plus cached endpoint
coordinates. -/
structure MemberIncRec where
  start_node_ID : ℕ
  end_node_ID : ℕ
  start_node : Option Vec3
  end_node : Option Vec3
deriving DecidableEq

/-- Entry of `RawStdFile.supports['FIXED BUT']`: per-axis spring values and the
assigned nodes. -/
structure FixedButRec where
  KFX : Option ℚ
  KFY : Option ℚ
  KFZ : Option ℚ
  KMX : Option ℚ
  KMY : Option ℚ
  KMZ : Option ℚ
  assigned_node : List ℕ
deriving DecidableEq

/-- Value stored in `RawStdFile.supports`: FIXED BUT holds numbered spring
records, PINNED and FIXED hold a flat node list. -/
inductive SupportVal where
  | fixedBut (items : List (ℕ × FixedButRec))
  | nodes (ids : List ℕ)
deriving DecidableEq

/-- One load item dictionary.  The source uses one untyped dict per item; the
kind-specific keys are modelled as optional fields. -/
structure LoadItemRec where
  load_type : Option PyStr
  direction : Option PyStr
  force : Option ℚ
  FX : Option ℚ
  FY : Option ℚ
  FZ : Option ℚ
  MX : Option ℚ
  MY : Option ℚ
  MZ : Option ℚ
  assigned_members : List ℕ
deriving DecidableEq

/-- Entry of `RawStdFile.primary_loadcases`: header data plus the load items
grouped by kind keyword. -/
structure LoadCaseRec where
  load_type : PyStr
  load_name : PyStr
  load_items : List (PyStr × List (ℕ × LoadItemRec))
deriving DecidableEq

/-- Entry of `RawStdFile.materials`. -/
structure MaterialRec where
  name : PyStr
  youngs_modulus : Option ℚ
  poissons_ratio : Option ℚ
  mass_density : Option ℚ
  alpha : Option ℚ
  damping_coefficient : Option ℚ
  shear_modulus : Option ℚ
  mat_type : Option PyStr
  feature : PyStr
deriving DecidableEq

/-- The decoded document (`RawStdFile` collections).  Python dicts are
association lists; member and element properties are kept abstract as keyed
entries because only their presence matters to the claims under check. -/
structure RawStdDoc where
  direction : PyStr
  joint_coordinates : List (ℕ × Vec3)
  member_incidences : List (ℕ × MemberIncRec)
  element_incidences_shell : List (ℕ × List ℕ)
  materials : List (PyStr × MaterialRec)
  member_properties : List (ℕ × PyStr)
  element_properties : List (ℕ × PyStr)
  supports : List (PyStr × SupportVal)
  primary_loadcases : List (PyStr × LoadCaseRec)
  load_combinations : List (PyStr × PyStr)
deriving DecidableEq

/-- Python dict lookup in an association list. -/
def dictGet {α : Type} : List (ℕ × α) → ℕ → Option α
  | [], _ => none
  | kv :: rest, k => if kv.1 = k then some kv.2 else dictGet rest k

/-- `check_required_information` (source lines 2370-2396): warnings are
collected for missing optional record kinds; missing materials, missing member
properties in the presence of members, and missing element properties in the
presence of shell elements each raise `NotImplementedError`. -/
def check_required_information (raw : RawStdDoc) : Except StaadErr (List PyStr) :=
  let w0 := (if raw.joint_coordinates = []
      then ["WARNING: No node has definded in the model".toList] else [])
    ++ (if raw.member_incidences = []
      then ["WARNING: No member has definded in the model".toList] else [])
    ++ (if raw.element_incidences_shell = []
      then ["WARNING: No plate has definded in the model".toList] else [])
  if raw.materials = [] then
    .error (.notImplemented "ERROR: No material has definded in the model".toList)
  else if raw.member_properties = [] ∧ raw.member_incidences ≠ [] then
    .error (.notImplemented "ERROR: No section profile has definded in the model".toList)
  else if raw.element_properties = [] ∧ raw.element_incidences_shell ≠ [] then
    .error (.notImplemented "ERROR: No thickness has definded in the model".toList)
  else
    .ok (w0
      ++ (if raw.primary_loadcases = []
        then ["WARNING: No loadcase has definded in the model".toList] else [])
      ++ (if raw.load_combinations = []
        then ["WARNING: No load combination has definded in the model".toList] else []))

/-- FIXED BUT spring conversion of `convert_direction` (source lines
2290-2313): the Y and Z entries are swapped without any sign change. -/
def convertFixedBut (it : FixedButRec) : FixedButRec :=
  { KFX := it.KFX, KFY := it.KFZ, KFZ := it.KFY,
    KMX := it.KMX, KMY := it.KMZ, KMZ := it.KMY,
    assigned_node := it.assigned_node }

/-- Load-item conversion of `convert_direction` (source lines 2316-2363),
dispatching on the load-kind key.  SELFWEIGHT directions become Z.  For JOINT
LOAD the source computes the swapped components but assigns them to the
rebound loop variable `value2` instead of the stored dictionary, so the stored
items are unchanged.  For MEMBER LOAD the direction codes GY and GZ are
swapped, but the GZ magnitude flip is written `value2['force'] == -1 *
value2['force']` (a comparison, not an assignment), so the magnitude is
unchanged.  For ELEMENT LOAD the swap and the magnitude flip both happen.
Other kinds (including SUPPORT DISPLACEMENT LOAD) fall into the final `pass`
and are unchanged. -/
def convertLoadGroup (grp : PyStr × List (ℕ × LoadItemRec)) :
    PyStr × List (ℕ × LoadItemRec) :=
  if grp.1 = "SELFWEIGHT".toList then
    (grp.1, grp.2.map (fun it => (it.1, { it.2 with direction := some "Z".toList })))
  else if grp.1 = "JOINT LOAD".toList then
    (grp.1, grp.2)
  else if grp.1 = "MEMBER LOAD".toList then
    (grp.1, grp.2.map (fun it =>
      if it.2.direction = some "GY".toList then
        (it.1, { it.2 with direction := some "GZ".toList })
      else if it.2.direction = some "GZ".toList then
        (it.1, { it.2 with direction := some "GY".toList })
      else it))
  else if grp.1 = "ELEMENT LOAD".toList then
    (grp.1, grp.2.map (fun it =>
      if it.2.direction = some "GY".toList then
        (it.1, { it.2 with direction := some "GZ".toList })
      else if it.2.direction = some "GZ".toList then
        (it.1, { it.2 with
                  direction := some "GY".toList,
                  force := it.2.force.map (fun f => -f) })
      else it))
  else grp

/-- `convert_direction` (source lines 2268-2367): identity for an up-axis of
Z; for Y, coordinates map as (x, y, z) to (x, -z, y), member incidences
refresh their cached endpoints from the converted joints (`KeyError` when an
endpoint id is unknown), FIXED BUT springs swap their Y and Z entries, load
items convert per kind, and the direction becomes Z; any other axis raises
`NotImplementedError`. -/
def convert_direction (RawStd : RawStdDoc) : Except StaadErr RawStdDoc :=
  if RawStd.direction = "Z".toList then .ok RawStd
  else if RawStd.direction = "Y".toList then
    let joints2 := RawStd.joint_coordinates.map
      (fun kv => (kv.1, (kv.2.1, -kv.2.2.2, kv.2.2.1)))
    match RawStd.member_incidences.mapM (fun kv =>
        match dictGet joints2 kv.2.start_node_ID, dictGet joints2 kv.2.end_node_ID with
        | some sn, some en =>
          some (kv.1, { kv.2 with start_node := some sn, end_node := some en })
        | _, _ => none) with
    | none => .error .keyErr
    | some members2 =>
      let supports2 := RawStd.supports.map (fun kv =>
        if kv.1 = "FIXED BUT".toList then
          (kv.1, match kv.2 with
            | .fixedBut items =>
              SupportVal.fixedBut (items.map (fun it => (it.1, convertFixedBut it.2)))
            | v => v)
        else kv)
      let loads2 := RawStd.primary_loadcases.map (fun kv =>
        (kv.1, { kv.2 with load_items := kv.2.load_items.map convertLoadGroup }))
      .ok { RawStd with
              direction := "Z".toList,
              joint_coordinates := joints2,
              member_incidences := members2,
              supports := supports2,
              primary_loadcases := loads2 }
  else
    .error (.notImplemented
      "ERROR: The direction sets in std file is not supported to covert.".toList)

/-- Concrete document exhibiting the C2 member-load bug: up-axis Y, a joint at
(1, 2, 3) and one MEMBER LOAD of direction GZ and magnitude 10. -/
def exDocC2 : RawStdDoc :=
  { direction := "Y".toList,
    joint_coordinates := [(1, ((1 : ℚ), (2 : ℚ), (3 : ℚ)))],
    member_incidences := [], element_incidences_shell := [], materials := [],
    member_properties := [], element_properties := [], supports := [],
    primary_loadcases := [("1".toList,
      { load_type := "Live".toList, load_name := "LC1".toList,
        load_items := [("MEMBER LOAD".toList,
          [(1, { load_type := some "uniform_force".toList,
                 direction := some "GZ".toList, force := some (10 : ℚ),
                 FX := none, FY := none, FZ := none, MX := none, MY := none,
                 MZ := none, assigned_members := [1] })])] })],
    load_combinations := [] }

/-- Concrete document exhibiting the C9 bug: up-axis Y, one JOINT LOAD item
and one SUPPORT DISPLACEMENT LOAD item with all six components set. -/
def exDocC9 : RawStdDoc :=
  { direction := "Y".toList,
    joint_coordinates := [], member_incidences := [],
    element_incidences_shell := [], materials := [],
    member_properties := [], element_properties := [], supports := [],
    primary_loadcases := [("1".toList,
      { load_type := "Live".toList, load_name := "LC1".toList,
        load_items := [
          ("JOINT LOAD".toList,
            [(1, { load_type := none, direction := none, force := none,
                   FX := some (1 : ℚ), FY := some (2 : ℚ), FZ := some (3 : ℚ),
                   MX := some (4 : ℚ), MY := some (5 : ℚ), MZ := some (6 : ℚ),
                   assigned_members := [1] })]),
          ("SUPPORT DISPLACEMENT LOAD".toList,
            [(1, { load_type := none, direction := none, force := none,
                   FX := some (1 : ℚ), FY := some (2 : ℚ), FZ := some (3 : ℚ),
                   MX := some (4 : ℚ), MY := some (5 : ℚ), MZ := some (6 : ℚ),
                   assigned_members := [1] })])] })],
    load_combinations := [] }

/-- Decimal digit test. -/
def isDigitCh (c : Char) : Bool := 48 ≤ c.toNat && c.toNat ≤ 57

/-- Value of an all-digit string (0 for the empty string). -/
def digitsVal (s : PyStr) : ℕ := s.foldl (fun acc c => acc * 10 + (c.toNat - 48)) 0

/-- Strip an optional leading sign, returning the sign and the remainder. -/
def pySignSplit (s : PyStr) : ℤ × PyStr :=
  match s with
  | '-' :: rest => (-1, rest)
  | '+' :: rest => (1, rest)
  | _ => (1, s)

/-- Mantissa of a Python float literal: digits, optionally split by one dot;
at least one digit must be present. -/
def pyFloatMant (s : PyStr) : Option ℚ :=
  let d1 := s.takeWhile isDigitCh
  match s.drop d1.length with
  | [] => if d1 = [] then none else some (digitsVal d1 : ℚ)
  | '.' :: d2 =>
    if d2.all isDigitCh then
      if d1 = [] ∧ d2 = [] then none
      else some ((digitsVal d1 : ℚ) + (digitsVal d2 : ℚ) / (10 : ℚ) ^ d2.length)
    else none
  | _ => none

/-- Python `float` on a string: optional sign, mantissa, optional exponent;
`none` models `ValueError`. -/
def pyFloat (s : PyStr) : Option ℚ :=
  let sgs := pySignSplit s
  let mantStr := sgs.2.takeWhile (fun c => !(c == 'e' || c == 'E'))
  match pyFloatMant mantStr with
  | none => none
  | some m =>
    match sgs.2.drop mantStr.length with
    | [] => some (sgs.1 * m)
    | _ :: expPart =>
      let esd := pySignSplit expPart
      if esd.2 ≠ [] ∧ esd.2.all isDigitCh then
        some (sgs.1 * m * (10 : ℚ) ^ (esd.1 * (digitsVal esd.2 : ℤ)))
      else none

/-- Second token of a material line parsed as a float: a missing token is an
`IndexError`, an unparsable one a `ValueError`. -/
def floatTok (toks : List PyStr) : Except StaadErr ℚ :=
  match toks.get? 1 with
  | none => .error .indexErr
  | some t =>
    match pyFloat t with
    | none => .error .valueErr
    | some v => .ok v

/-- Field update of `get_material` for one line of a material block (source
lines 1083-1099, duplicated at 1103-1119): the first token selects the field;
E, G and DENSITY values are scaled by the force factor, and DENSITY is further
divided by the gravitational constant 9.81. -/
def get_materialLine (factor : ℚ) (m : MaterialRec) (l : PyStr) :
    Except StaadErr MaterialRec :=
  let toks := splitSpace l
  let key := toks.headD []
  if key = "E".toList then
    match floatTok toks with
    | .error e => .error e
    | .ok v => .ok { m with youngs_modulus := some (v * factor) }
  else if key = "POISSON".toList then
    match floatTok toks with
    | .error e => .error e
    | .ok v => .ok { m with poissons_ratio := some v }
  else if key = "DENSITY".toList then
    match floatTok toks with
    | .error e => .error e
    | .ok v => .ok { m with mass_density := some (v * factor / (981 / 100)) }
  else if key = "ALPHA".toList then
    match floatTok toks with
    | .error e => .error e
    | .ok v => .ok { m with alpha := some v }
  else if key = "DAMP".toList then
    match floatTok toks with
    | .error e => .error e
    | .ok v => .ok { m with damping_coefficient := some v }
  else if key = "TYPE".toList then
    match toks.get? 1 with
    | none => .error .indexErr
    | some t => .ok { m with mat_type := some t }
  else if key = "G".toList then
    match floatTok toks with
    | .error e => .error e
    | .ok v => .ok { m with shear_modulus := some (v * factor) }
  else .ok m

/-- Fold of the field updates over the lines of one material block. -/
def foldMatLines (factor : ℚ) (m : MaterialRec) : List PyStr → Except StaadErr MaterialRec
  | [] => .ok m
  | l :: rest =>
    match get_materialLine factor m l with
    | .ok m2 => foldMatLines factor m2 rest
    | .error e => .error e

/-- Block loop of `get_material` (source lines 1070-1132): each line containing
ISOTROPIC opens a material named by its second token; all lines up to the next
ISOTROPIC line are folded through the field updates; a `ValueError` is caught
by the enclosing `try`, returning the materials stored so far, while an
`IndexError` propagates.  `fuel` only drives the recursion. -/
def get_materialBlocks (factor : ℚ) :
    ℕ → List (PyStr × MaterialRec) → List PyStr → Except StaadErr (List (PyStr × MaterialRec))
  | 0, acc, _ => .ok acc
  | _ + 1, acc, [] => .ok acc
  | fuel + 1, acc, l :: rest =>
    if hasSub "ISOTROPIC".toList l then
      match (splitSpace l).get? 1 with
      | none => .error .indexErr
      | some name =>
        let blockLines := rest.takeWhile (fun x => !hasSub "ISOTROPIC".toList x)
        let init : MaterialRec :=
          ⟨name, none, none, none, none, none, none, none, "isotropic".toList⟩
        match foldMatLines factor init (l :: blockLines) with
        | .error .valueErr => .ok acc
        | .error e => .error e
        | .ok mrec =>
          get_materialBlocks factor fuel (acc ++ [(name, mrec)]) (rest.drop blockLines.length)
    else get_materialBlocks factor fuel acc rest

/-- Python `list.index`: position of the first element equal to `target`,
`ValueError` (`none`) when absent. -/
def pyIndex (target : PyStr) : List PyStr → Option ℕ
  | [] => none
  | l :: rest => if l = target then some 0 else (pyIndex target rest).map (fun i => i + 1)

/-- `RawStdFile.get_material` (source lines 1065-1135): locate the
`DEFINE MATERIAL START` / `END DEFINE MATERIAL` markers (absence means the
caught `ValueError`, leaving the materials empty) and run the block loop over
the enclosed segment.  The force factor comes from the previously decoded
units. -/
def get_material (std_data : List PyStr) (factor : ℚ) :
    Except StaadErr (List (PyStr × MaterialRec)) :=
  match pyIndex "DEFINE MATERIAL START".toList std_data,
        pyIndex "END DEFINE MATERIAL".toList std_data with
  | some s, some e =>
    get_materialBlocks factor (std_data.length + 1) [] ((std_data.drop s).take (e + 1 - s))
  | _, _ => .ok []

/-- Leading integer id of a record string (`int(item.split(' ')[0])`). -/
def keyOf (item : PyStr) : Option ℕ := parseNat ((splitSpace item).headD [])

/-- Python dict store: replace the value of an existing key in place, else
append. -/
def dictInsert : List (ℕ × PyStr) → ℕ → PyStr → List (ℕ × PyStr)
  | [], k, v => [(k, v)]
  | kv :: rest, k, v =>
    if kv.1 = k then (kv.1, v) :: rest else kv :: dictInsert rest k v

/-- Dictionary-building loop of `_check_row_length` (source lines 83-85):
`ref_strings[int(item.split(' ')[0])] = item` for each record; a non-numeric
leading token is a `ValueError` (`none`). -/
def buildRef (d : List (ℕ × PyStr)) : List PyStr → Option (List (ℕ × PyStr))
  | [] => some d
  | item :: rest =>
    match keyOf item with
    | none => none
    | some k => buildRef (dictInsert d k item) rest

/-- Packing loop of `_check_row_length` (source lines 91-100): `cur` is the
line being filled, `i` the record index; a record that would push the line
past the limit (not counting the separating space) opens a new line. -/
def packLoop (limit : ℕ) : ℕ → PyStr → List PyStr → List PyStr
  | _, cur, [] => [cur]
  | i, cur, s :: rest =>
    if cur.length + s.length > limit then cur :: packLoop limit (i + 1) s rest
    else if i = 0 then packLoop limit (i + 1) (cur ++ s) rest
    else packLoop limit (i + 1) (cur ++ ' ' :: s) rest

/-- `_check_row_length`: dedupe the records by leading id (last wins), sort by
id ascending, pack onto lines of the project column limit. -/
def check_row_length (limit : ℕ) (string_list : List PyStr) :
    Except StaadErr (List PyStr) :=
  match buildRef [] string_list with
  | none => .error .valueErr
  | some d =>
    .ok (packLoop limit 0 []
      ((sortNat (d.map (fun p => p.1))).filterMap (fun k => dictGet d k)))

/-- Last record of the input with the given leading id. -/
def lastFor (sl : List PyStr) (k : ℕ) : Option PyStr :=
  (sl.filter (fun item => keyOf item == some k)).getLast?

/-- Specification-side record list: for each leading id the last occurrence,
in ascending id order. -/
def specRecords (sl : List PyStr) : List PyStr :=
  (sortNat ((sl.filterMap keyOf).dedup)).filterMap (lastFor sl)

/-- Join a list of lines with single spaces. -/
def joinSpace : List PyStr → PyStr
  | [] => []
  | [r] => r
  | r :: rs => r ++ ' ' :: joinSpace rs

/-- Over a list of numeral tokens `detailGo` is the identity. -/
theorem detailGo_nums (orig : List STok) (prev : Option STok) (q : List ℕ) :
    detailGo orig prev (q.map STok.num) = some (q.map STok.num) := by
  induction q generalizing prev with
  | nil => rfl
  | cons n q ih =>
    simp [detailGo, ih]

/-- Numeral tokens survive the empty-token filter unchanged. -/
theorem filter_emptyTok_map_num (l : List ℕ) :
    (l.map STok.num).filter (fun t => !(t == STok.emptyTok)) = l.map STok.num := by
  induction l with
  | nil => rfl
  | cons n l ih => simp [List.filter_cons, beq_iff_eq, ih]

/-- Core expansion lemma: inside any list of numeral tokens, `a TO b` expands
to the integers strictly between `a` and `b`, keeping both endpoints. -/
theorem detailGo_range (orig : List STok) (prev : Option STok) (p q : List ℕ) (a b : ℕ) :
    detailGo orig prev (p.map STok.num ++ [STok.num a, STok.to, STok.num b] ++ q.map STok.num)
      = some (p.map STok.num ++ [STok.num a]
          ++ (List.range' (a + 1) (b - (a + 1))).map STok.num
          ++ [STok.num b] ++ q.map STok.num) := by
  induction p generalizing prev with
  | nil =>
    have hq := detailGo_nums orig (some (STok.num b)) q
    simp [detailGo, pyIntTok, hq]
  | cons n p ih =>
    have h := ih (some (STok.num n))
    simp only [List.map_cons, List.cons_append, List.append_assoc, List.nil_append] at h ⊢
    simp [detailGo, h]

/-- C1: round-trip of the range syntax.  Compressing the id set
{1,2,3,4,5,7,9,10,11} with the run builder of `_check_duplicate_entries`
yields the clause "1 TO 5 7 9 TO 11", and expanding that clause with
`detail_members` yields exactly the original ids; in general, inside a list of
numeral tokens, `a TO b` expands to every integer in [a+1, b-1] inserted
between the surrounding endpoint tokens `a` and `b`. -/
theorem C1_range_roundtrip :
    (compress_runs [1, 2, 3, 4, 5, 7, 9, 10, 11] = "1 TO 5 7 9 TO 11".toList
      ∧ detail_members (tokenizeClause (compress_runs [1, 2, 3, 4, 5, 7, 9, 10, 11]))
          = some (([1, 2, 3, 4, 5, 7, 9, 10, 11] : List ℕ).map STok.num))
    ∧ ∀ (p q : List ℕ) (a b : ℕ),
        detail_members (p.map STok.num ++ [STok.num a, STok.to, STok.num b] ++ q.map STok.num)
          = some ((p ++ [a] ++ List.range' (a + 1) (b - (a + 1)) ++ [b] ++ q).map STok.num) := by
  constructor
  · constructor
    · decide
    · decide
  · intro p q a b
    unfold detail_members
    rw [detailGo_range]
    have hmap : p.map STok.num ++ [STok.num a]
        ++ (List.range' (a + 1) (b - (a + 1))).map STok.num
        ++ [STok.num b] ++ q.map STok.num
        = (p ++ [a] ++ List.range' (a + 1) (b - (a + 1)) ++ [b] ++ q).map STok.num := by
      simp
    rw [hmap]
    simp [filter_emptyTok_map_num]

/-- Specification of the wrapping loop: on success every line fits in 77
characters, every non-final line ends in the marker, the output is nonempty
and rejoining restores the input. -/
theorem wrapLoop_spec (fuel : ℕ) :
    ∀ (s : PyStr) (ls : List PyStr), wrapLoop fuel s = some ls →
      (∀ l ∈ ls, l.length ≤ 77) ∧ nonFinalDash ls = true
        ∧ rejoinWrapped ls = s ∧ ls ≠ [] := by
  induction fuel with
  | zero =>
    intro s ls h
    simp [wrapLoop] at h
  | succ fuel ih =>
    intro s ls h
    simp only [wrapLoop] at h
    by_cases hlen : s.length > 76
    · rw [if_pos hlen] at h
      by_cases hfound :
          List.findIdx (fun c => c == ' ') (s.take 76).reverse = (s.take 76).length
      · rw [if_pos hfound] at h
        exact absurd h (by simp)
      · rw [if_neg hfound] at h
        cases hrec : wrapLoop fuel
            ((s.take 76).drop ((s.take 76).length - List.findIdx (fun c => c == ' ')
              (s.take 76).reverse) ++ s.drop 76) with
        | none => rw [hrec] at h; exact absurd h (by simp)
        | some rest =>
          rw [hrec] at h
          obtain ⟨ih1, ih2, ih3, ih4⟩ := ih _ _ hrec
          simp only [Option.map_some', Option.some.injEq] at h
          subst h
          have hlen76 : (s.take 76).length = 76 := by
            simp only [List.length_take]
            omega
          refine ⟨?_, ?_, ?_, by simp⟩
          · intro l hl
            rcases List.mem_cons.mp hl with rfl | hmem
            · simp only [List.length_append, List.length_take, List.length_cons,
                List.length_nil]
              omega
            · exact ih1 l hmem
          · cases rest with
            | nil => exact absurd rfl ih4
            | cons r rs =>
              simp only [nonFinalDash, Bool.and_eq_true, beq_iff_eq]
              exact ⟨List.getLast?_concat _, ih2⟩
          · cases rest with
            | nil => exact absurd rfl ih4
            | cons r rs =>
              simp only [rejoinWrapped, List.dropLast_concat]
              rw [ih3, ← List.append_assoc, List.take_append_drop, List.take_append_drop]
    · rw [if_neg hlen] at h
      cases h
      refine ⟨?_, rfl, rfl, by simp⟩
      intro l hl
      rcases List.mem_singleton.mp hl with rfl
      omega

/-- C3 counterexample: a 79-character line with no space exceeds the limit,
yet `check_length_of_line` raises (Python `ValueError` from `index(' ')`)
instead of emitting lines that reconstruct the input, so the claim fails as
stated for this input. -/
theorem C3_wrap_counterexample :
    (List.replicate 79 'a').length > 78
    ∧ ¬ ∃ ls, check_length_of_line (List.replicate 79 'a') = some ls
        ∧ rejoinWrapped ls = List.replicate 79 'a' := by
  refine ⟨by decide, ?_⟩
  rintro ⟨ls, h, -⟩
  have hnone : check_length_of_line (List.replicate 79 'a') = none := by decide
  rw [hnone] at h
  exact Option.noConfusion h

/-- C3 amended: for every input line longer than the 78-character limit on
which the wrapper succeeds (each 76-character window it cuts contains a
space), every emitted line has length at most 78, every non-final emitted
line ends in the continuation marker, and stripping the markers and
concatenating reconstructs the original line exactly. -/
theorem C3_wrap_amended (s : PyStr) (ls : List PyStr) (hlen : s.length > 78)
    (h : check_length_of_line s = some ls) :
    (∀ l ∈ ls, l.length ≤ 78) ∧ nonFinalDash ls = true ∧ rejoinWrapped ls = s := by
  rw [check_length_of_line, if_pos hlen] at h
  obtain ⟨h1, h2, h3, -⟩ := wrapLoop_spec (s.length + 1) s ls h
  exact ⟨fun l hl => le_trans (h1 l hl) (by omega), h2, h3⟩

/-- Concrete instance of the amended C3 statement on an 81-character line. -/
theorem C3_wrap_amended_witness :
    (∀ l ∈ [List.replicate 40 'a' ++ [' ', '-'], List.replicate 40 'b'], l.length ≤ 78)
    ∧ nonFinalDash [List.replicate 40 'a' ++ [' ', '-'], List.replicate 40 'b'] = true
    ∧ rejoinWrapped [List.replicate 40 'a' ++ [' ', '-'], List.replicate 40 'b']
        = List.replicate 40 'a' ++ [' '] ++ List.replicate 40 'b' :=
  C3_wrap_amended (List.replicate 40 'a' ++ [' '] ++ List.replicate 40 'b')
    [List.replicate 40 'a' ++ [' ', '-'], List.replicate 40 'b']
    (by decide) (by decide)

/-- Membership in the first space-separated token implies membership in the
line. -/
theorem mem_headTok {x : Char} : ∀ {l : PyStr}, x ∈ (splitSpace l).headD [] → x ∈ l := by
  intro l
  induction l with
  | nil => intro h; exact absurd h (by simp [splitSpace])
  | cons c cs ih =>
    intro h
    by_cases hc : c = ' '
    · subst hc
      simp [splitSpace] at h
    · simp only [splitSpace, List.foldr_cons, if_neg hc] at h
      rcases List.mem_cons.mp (by simpa using h) with rfl | h2
      · exact List.mem_cons_self _ _
      · exact List.mem_cons_of_mem _ (ih (by simpa [splitSpace] using h2))

/-- A star-free line neither starts with `*` nor has `*` as first token. -/
theorem star_free_checks {l : PyStr} (h : l.contains '*' = false) :
    ((splitSpace l).headD [] == ['*'] || l.headD ' ' == '*') = false := by
  have h1 : ((splitSpace l).headD [] == ['*']) = false := by
    rw [beq_eq_false_iff_ne]
    intro hEq
    have hmem : '*' ∈ l := mem_headTok (by rw [hEq]; exact List.mem_singleton_self _)
    have hno : ¬ '*' ∈ l := by simpa using h
    exact hno hmem
  have h2 : (l.headD ' ' == '*') = false := by
    cases l with
    | nil => decide
    | cons c cs =>
      simp only [List.contains_cons, Bool.or_eq_false_iff] at h
      simpa using fun hc => by simp [hc] at h
  rw [h1, h2]
  rfl

/-- A nonempty list has a last element, and it is a member. -/
theorem getLastQ_isSome {α : Type} : ∀ {l : List α}, l ≠ [] → ∃ p, l.getLast? = some p ∧ p ∈ l := by
  intro l
  induction l with
  | nil => intro h; exact absurd rfl h
  | cons a t ih =>
    intro _
    cases t with
    | nil => exact ⟨a, rfl, List.mem_singleton_self a⟩
    | cons b t2 =>
      obtain ⟨p, hp, hm⟩ := ih (by simp)
      exact ⟨p, by rw [List.getLast?_cons_cons]; exact hp, List.mem_cons_of_mem _ hm⟩

/-- Helper: when no line can act as a continuation source, the joiner is a
pure filter. -/
theorem readFileGo_noCont (orig : List PyStr) (hne : orig ≠ [])
    (horig : ∀ p, orig.getLast? = some p → noCont p = true) :
    ∀ (rest : List PyStr), (∀ l ∈ rest, noCont l = true) →
      ∀ (prev : Option PyStr), (∀ p, prev = some p → noCont p = true) →
      ∀ (acc : List PyStr),
        readFileGo orig prev acc rest = some (acc.reverse ++ rest.filter keptLine) := by
  intro rest
  induction rest with
  | nil =>
    intro _ prev _ acc
    simp [readFileGo]
  | cons l rest ih =>
    intro hrest prev hprev acc
    have hl := hrest l (List.mem_cons_self _ _)
    have hrest2 : ∀ x ∈ rest, noCont x = true :=
      fun x hx => hrest x (List.mem_cons_of_mem _ hx)
    by_cases hstar : (l.contains '*' || l == []) = true
    · have hkept : keptLine l = false := by
        simp only [keptLine, hstar, Bool.not_true]
      rw [readFileGo, if_pos hstar]
      simp only [List.filter_cons, hkept, Bool.false_eq_true, if_false]
      exact ih hrest2 (some l) (fun p hp => by cases hp; exact hl) acc
    · have hstar' : (l.contains '*' || l == []) = false := by
        revert hstar
        cases (l.contains '*' || l == []) <;> simp
      have hcont : l.contains '*' = false := by
        revert hstar'
        cases h2 : l.contains '*' <;> simp
      rw [readFileGo, if_neg (by rw [hstar']; exact Bool.false_ne_true),
        if_neg (by rw [star_free_checks hcont]; exact Bool.false_ne_true)]
      have hpv : ∃ pv, prevPhysical orig prev = some pv ∧ noCont pv = true := by
        cases prev with
        | some p => exact ⟨p, rfl, hprev p rfl⟩
        | none =>
          obtain ⟨p, hp, -⟩ := getLastQ_isSome hne
          exact ⟨p, hp, horig p hp⟩
      obtain ⟨pv, hpvEq, hpvNo⟩ := hpv
      rw [hpvEq]
      have hno1 : (pv.drop (pv.length - 1) == ['-']) = false := by
        revert hpvNo
        unfold noCont
        cases (pv.drop (pv.length - 1) == ['-']) <;> simp
      have hno2 : (pv.drop (pv.length - 2) == ['-', ' ']) = false := by
        revert hpvNo
        unfold noCont
        cases (pv.drop (pv.length - 2) == ['-', ' ']) <;> simp
      dsimp only
      have hc1 : (pv.drop (pv.length - 1) == ['-'] && !hasSub "TITLE".toList pv) = false := by
        rw [hno1]
        rfl
      rw [if_neg (by rw [hc1]; exact Bool.false_ne_true),
        if_neg (by rw [hno2]; exact Bool.false_ne_true)]
      rw [ih hrest2 (some l) (fun p hp => by cases hp; exact hl) (l :: acc)]
      rw [List.filter_cons,
        if_pos (show keptLine l = true by simp only [keptLine, hstar', Bool.not_false])]
      simp

/-- C6 counterexample: the physical line "A * B" is not blank, does not start
with `*` and its first token is not `*`, yet `read_file` removes it, because
the source drops every line containing `*` anywhere. -/
theorem C6_comment_counterexample :
    ("A * B".toList ≠ [] ∧ "A * B".toList.headD ' ' ≠ '*'
      ∧ (splitSpace "A * B".toList).headD [] ≠ ['*'])
    ∧ read_file ["A * B".toList] = some [] := by
  decide

/-- C6 amended: in a line stream where no line ends in the continuation
marker, a physical line is removed by `read_file` if and only if it is blank
or contains `*` anywhere (not only at the start); all other lines are
preserved in order. -/
theorem C6_comment_amended (lines : List PyStr)
    (hno : ∀ l ∈ lines, noCont l = true) :
    read_file lines = some (lines.filter keptLine) := by
  cases hl : lines with
  | nil => rfl
  | cons l0 rest0 =>
    subst hl
    have hlast : ∀ p, (l0 :: rest0).getLast? = some p → noCont p = true := by
      intro p hp
      obtain ⟨q, hq, hqm⟩ := getLastQ_isSome (show (l0 :: rest0) ≠ [] by simp)
      rw [hq] at hp
      obtain rfl := Option.some.inj hp
      exact hno _ hqm
    exact readFileGo_noCont (l0 :: rest0) (by simp) hlast (l0 :: rest0) hno none
      (fun p hp => Option.noConfusion hp) []

/-- A kept line is star-free and nonblank. -/
theorem keptLine_split {l : PyStr} (h : keptLine l = true) :
    (l.contains '*' || l == []) = false := by
  revert h
  unfold keptLine
  cases (l.contains '*' || l == []) <;> simp

/-- A line without continuation marker fails the bare-marker test. -/
theorem noCont_split1 {l : PyStr} (h : noCont l = true) :
    (l.drop (l.length - 1) == ['-']) = false := by
  revert h
  unfold noCont
  cases (l.drop (l.length - 1) == ['-']) <;> simp

/-- A line without continuation marker fails the marker-space test. -/
theorem noCont_split2 {l : PyStr} (h : noCont l = true) :
    (l.drop (l.length - 2) == ['-', ' ']) = false := by
  revert h
  unfold noCont
  cases (l.drop (l.length - 2) == ['-', ' ']) <;> simp

/-- Concrete instance of the amended C6 statement. -/
theorem C6_comment_amended_witness :
    read_file ["LOAD 1".toList, "".toList, "* COMMENT".toList, "JOINT COORDINATES".toList]
      = some (["LOAD 1".toList, "".toList, "* COMMENT".toList,
          "JOINT COORDINATES".toList].filter keptLine) :=
  C6_comment_amended _ (by decide)

/-- C7 counterexample: a line containing the token TITLE that ends in the
marker-plus-space form "- " is still merged with the following line, because
the source's second continuation branch has no TITLE exception. -/
theorem C7_cont_counterexample :
    hasSub "TITLE".toList "TITLE A - ".toList = true
    ∧ read_file ["TITLE A - ".toList, "B".toList] = some ["TITLE A B".toList]
    ∧ read_file ["TITLE A - ".toList, "B".toList]
        ≠ some ["TITLE A - ".toList, "B".toList] := by
  decide

/-- Helper: on a two-line stream with a kept, non-continuing second line, the
joiner appends the first line and proceeds. -/
theorem readFile_pair_step (l1 l2 : PyStr) (h1 : keptLine l1 = true)
    (hno2 : noCont l2 = true) :
    read_file [l1, l2] = readFileGo [l1, l2] (some l1) [l1] [l2] := by
  have h1or := keptLine_split h1
  have hcont1 : l1.contains '*' = false := (Bool.or_eq_false_iff.mp h1or).1
  have hc2 : (l2.drop (l2.length - 1) == ['-'] && !hasSub "TITLE".toList l2) = false := by
    rw [noCont_split1 hno2]
    rfl
  unfold read_file
  rw [readFileGo, if_neg (by rw [h1or]; exact Bool.false_ne_true),
    if_neg (by rw [star_free_checks hcont1]; exact Bool.false_ne_true)]
  rw [show prevPhysical [l1, l2] none = some l2 from rfl]
  dsimp only
  rw [if_neg (by rw [hc2]; exact Bool.false_ne_true),
    if_neg (by rw [noCont_split2 hno2]; exact Bool.false_ne_true)]

/-- C7 amended: a physical line is merged into the previous logical line
exactly when the previous line ends with the bare marker and does not contain
TITLE, or ends with marker-plus-space (TITLE or not); in particular a line
ending in the bare marker that does contain TITLE is left unmerged, and a
line with no marker at all is left unmerged.  On merge, if the marker was
preceded by a space no extra space is inserted before the next line's
content, otherwise exactly one space is inserted, and the merged output
preserves content order. -/
theorem C7_cont_amended :
    (∀ (l1 l2 : PyStr) (c : Char), keptLine l1 = true → keptLine l2 = true →
      noCont l2 = true → l1.drop (l1.length - 1) = ['-'] →
      hasSub "TITLE".toList l1 = false → pyCharFromEnd l1 2 = some c →
      read_file [l1, l2]
        = some [l1.dropLast ++ (if c = ' ' then [] else [' ']) ++ l2])
    ∧ (∀ (l1 l2 : PyStr) (c : Char), keptLine l1 = true → keptLine l2 = true →
      noCont l2 = true → l1.drop (l1.length - 2) = ['-', ' '] →
      pyCharFromEnd l1 3 = some c →
      read_file [l1, l2]
        = some [l1.dropLast.dropLast ++ (if c = ' ' then [] else [' ']) ++ l2])
    ∧ (∀ (l1 l2 : PyStr), keptLine l1 = true → keptLine l2 = true →
      noCont l1 = true → noCont l2 = true →
      read_file [l1, l2] = some [l1, l2])
    ∧ (∀ (l1 l2 : PyStr), keptLine l1 = true → keptLine l2 = true →
      noCont l2 = true → l1.drop (l1.length - 1) = ['-'] →
      hasSub "TITLE".toList l1 = true →
      read_file [l1, l2] = some [l1, l2]) := by
  refine ⟨?_, ?_, ?_, ?_⟩
  · intro l1 l2 c h1 h2 hno2 hdash htitle hc
    have h2or := keptLine_split h2
    have hcont2 : l2.contains '*' = false := (Bool.or_eq_false_iff.mp h2or).1
    have hcond : (l1.drop (l1.length - 1) == ['-'] && !hasSub "TITLE".toList l1) = true := by
      rw [hdash, htitle]
      rfl
    rw [readFile_pair_step l1 l2 h1 hno2]
    rw [readFileGo, if_neg (by rw [h2or]; exact Bool.false_ne_true),
      if_neg (by rw [star_free_checks hcont2]; exact Bool.false_ne_true)]
    rw [show prevPhysical [l1, l2] (some l1) = some l1 from rfl]
    dsimp only
    rw [if_pos hcond, hc]
    simp [mergeInto, readFileGo]
  · intro l1 l2 c h1 h2 hno2 hdash hc
    have h2or := keptLine_split h2
    have hcont2 : l2.contains '*' = false := (Bool.or_eq_false_iff.mp h2or).1
    have hlen : 2 ≤ l1.length := by
      have hdl : (l1.drop (l1.length - 2)).length = 2 := by rw [hdash]; rfl
      rw [List.length_drop] at hdl
      omega
    have hlast : l1.drop (l1.length - 1) = [' '] := by
      have hdd : l1.drop (l1.length - 1) = (l1.drop (l1.length - 2)).drop 1 := by
        rw [List.drop_drop]
        congr 1
        omega
      rw [hdd, hdash]
      rfl
    have hcond3 : (l1.drop (l1.length - 1) == ['-'] && !hasSub "TITLE".toList l1) = false := by
      rw [hlast]
      rfl
    have hcond4 : (l1.drop (l1.length - 2) == ['-', ' ']) = true := by
      rw [hdash]
      rfl
    rw [readFile_pair_step l1 l2 h1 hno2]
    rw [readFileGo, if_neg (by rw [h2or]; exact Bool.false_ne_true),
      if_neg (by rw [star_free_checks hcont2]; exact Bool.false_ne_true)]
    rw [show prevPhysical [l1, l2] (some l1) = some l1 from rfl]
    dsimp only
    rw [if_neg (by rw [hcond3]; exact Bool.false_ne_true), if_pos hcond4, hc]
    simp [mergeInto, readFileGo]
  · intro l1 l2 h1 h2 hno1 hno2
    have h2or := keptLine_split h2
    have hcont2 : l2.contains '*' = false := (Bool.or_eq_false_iff.mp h2or).1
    have hcond3 : (l1.drop (l1.length - 1) == ['-'] && !hasSub "TITLE".toList l1) = false := by
      rw [noCont_split1 hno1]
      rfl
    rw [readFile_pair_step l1 l2 h1 hno2]
    rw [readFileGo, if_neg (by rw [h2or]; exact Bool.false_ne_true),
      if_neg (by rw [star_free_checks hcont2]; exact Bool.false_ne_true)]
    rw [show prevPhysical [l1, l2] (some l1) = some l1 from rfl]
    dsimp only
    rw [if_neg (by rw [hcond3]; exact Bool.false_ne_true),
      if_neg (by rw [noCont_split2 hno1]; exact Bool.false_ne_true)]
    simp [readFileGo]
  · intro l1 l2 h1 h2 hno2 hdash htitle
    have h2or := keptLine_split h2
    have hcont2 : l2.contains '*' = false := (Bool.or_eq_false_iff.mp h2or).1
    have hcond3 : (l1.drop (l1.length - 1) == ['-'] && !hasSub "TITLE".toList l1) = false := by
      rw [htitle]
      simp
    have hcond4 : (l1.drop (l1.length - 2) == ['-', ' ']) = false := by
      rw [beq_eq_false_iff_ne]
      intro hds
      have hlen : 2 ≤ l1.length := by
        have hdl := congrArg List.length hds
        rw [List.length_drop] at hdl
        simp at hdl
        omega
      have hdd : l1.drop (l1.length - 1) = (l1.drop (l1.length - 2)).drop 1 := by
        rw [List.drop_drop]
        congr 1
        omega
      rw [hdd, hds] at hdash
      exact absurd hdash (by decide)
    rw [readFile_pair_step l1 l2 h1 hno2]
    rw [readFileGo, if_neg (by rw [h2or]; exact Bool.false_ne_true),
      if_neg (by rw [star_free_checks hcont2]; exact Bool.false_ne_true)]
    rw [show prevPhysical [l1, l2] (some l1) = some l1 from rfl]
    dsimp only
    rw [if_neg (by rw [hcond3]; exact Bool.false_ne_true),
      if_neg (by rw [hcond4]; exact Bool.false_ne_true)]
    simp [readFileGo]

/-- Concrete instances of all four cases of the amended C7 statement,
including a TITLE line ending in the bare marker that stays unmerged. -/
theorem C7_cont_amended_witness :
    read_file ["AB -".toList, "CD".toList] = some ["AB CD".toList]
    ∧ read_file ["AB - ".toList, "CD".toList] = some ["AB CD".toList]
    ∧ read_file ["AB".toList, "CD".toList] = some ["AB".toList, "CD".toList]
    ∧ read_file ["TITLE A -".toList, "CD".toList]
        = some ["TITLE A -".toList, "CD".toList] := by
  refine ⟨?_, ?_, ?_, ?_⟩
  · exact (C7_cont_amended.1 "AB -".toList "CD".toList ' ' (by decide) (by decide)
      (by decide) (by decide) (by decide) (by decide)).trans (by decide)
  · exact (C7_cont_amended.2.1 "AB - ".toList "CD".toList ' ' (by decide) (by decide)
      (by decide) (by decide) (by decide)).trans (by decide)
  · exact C7_cont_amended.2.2.1 "AB".toList "CD".toList
      (by decide) (by decide) (by decide) (by decide)
  · exact C7_cont_amended.2.2.2 "TITLE A -".toList "CD".toList
      (by decide) (by decide) (by decide) (by decide) (by decide)

/-- Lines without the UNIT substring are skipped by the unit scanner. -/
theorem get_unit_loop_skip (u : UnitRec) (rest : List PyStr) :
    ∀ pre : List PyStr, (∀ x ∈ pre, hasSub "UNIT".toList x = false) →
      get_unit_loop u (pre ++ rest) = get_unit_loop u rest := by
  intro pre
  induction pre with
  | nil => intro _; rfl
  | cons p pre ih =>
    intro hp
    rw [List.cons_append, get_unit_loop,
      if_neg (by rw [hp p (List.mem_cons_self _ _)]; exact Bool.false_ne_true)]
    exact ih fun x hx => hp x (List.mem_cons_of_mem _ hx)

/-- C4: when no UNIT line is present the document defaults to meters and
kilonewtons with force multiplier 1000; a UNIT line whose third token is
neither KN nor N makes the decode raise a fatal `NotImplementedError`; a UNIT
line with third token KN stores factor 1000. -/
theorem C4_unit_handling :
    (∀ std_data : List PyStr, (∀ l ∈ std_data, hasSub "UNIT".toList l = false) →
      get_unit std_data = .ok ⟨"METER".toList, "kN".toList, 1000⟩)
    ∧ (∀ (pre : List PyStr) (l : PyStr) (post : List PyStr) (ud uf : PyStr),
      (∀ x ∈ pre, hasSub "UNIT".toList x = false) →
      hasSub "UNIT".toList l = true →
      (splitSpace l).get? 1 = some ud → (splitSpace l).get? 2 = some uf →
      uf ≠ "KN".toList → uf ≠ "N".toList →
      get_unit (pre ++ l :: post)
        = .error (.notImplemented ("ERROR: Only kiloNewton or Newton force are implemented. "
            ++ "Please check the unit of force in .std file again.").toList))
    ∧ (∀ (pre : List PyStr) (l : PyStr) (ud : PyStr),
      (∀ x ∈ pre, hasSub "UNIT".toList x = false) →
      hasSub "UNIT".toList l = true →
      (splitSpace l).get? 1 = some ud → (splitSpace l).get? 2 = some "KN".toList →
      get_unit (pre ++ [l]) = .ok ⟨ud, "KN".toList, 1000⟩) := by
  refine ⟨?_, ?_, ?_⟩
  · intro std_data hstd
    rw [get_unit, show std_data = std_data ++ [] by rw [List.append_nil],
      get_unit_loop_skip _ _ _ hstd]
    rfl
  · intro pre l post ud uf hpre hUnit h1 h2 hKN hN
    rw [get_unit, get_unit_loop_skip _ _ _ hpre, get_unit_loop, if_pos hUnit, h1, h2]
    dsimp only
    rw [if_neg hKN, if_neg hN]
  · intro pre l ud hpre hUnit h1 h2
    rw [get_unit, get_unit_loop_skip _ _ _ hpre, get_unit_loop, if_pos hUnit, h1, h2]
    dsimp only
    rw [if_pos rfl]
    rfl

/-- Concrete instances of the three C4 cases. -/
theorem C4_unit_handling_witness :
    get_unit ["JOINT COORDINATES".toList] = .ok ⟨"METER".toList, "kN".toList, 1000⟩
    ∧ get_unit ["UNIT METER KIP".toList]
        = .error (.notImplemented ("ERROR: Only kiloNewton or Newton force are implemented. "
            ++ "Please check the unit of force in .std file again.").toList)
    ∧ get_unit ["UNIT METER KN".toList] = .ok ⟨"METER".toList, "KN".toList, 1000⟩ := by
  refine ⟨?_, ?_, ?_⟩
  · exact C4_unit_handling.1 ["JOINT COORDINATES".toList] (by decide)
  · exact C4_unit_handling.2.1 [] "UNIT METER KIP".toList [] "METER".toList "KIP".toList
      (by decide) (by decide) (by decide) (by decide) (by decide) (by decide)
  · exact C4_unit_handling.2.2 [] "UNIT METER KN".toList "METER".toList
      (by decide) (by decide) (by decide) (by decide)

/-- C5: a decoded document with member incidences but no member-property
records fails the completeness check with a fatal error; a document complete
except for primary load cases passes the check and only carries the load-case
warning; a document without materials but with members or shells fails with
the fatal materials error. -/
theorem C5_completeness :
    (∀ raw : RawStdDoc, raw.member_incidences ≠ [] → raw.member_properties = [] →
      ∃ e, check_required_information raw = .error e)
    ∧ (∀ raw : RawStdDoc, raw.materials ≠ [] →
      (raw.member_properties ≠ [] ∨ raw.member_incidences = []) →
      (raw.element_properties ≠ [] ∨ raw.element_incidences_shell = []) →
      raw.primary_loadcases = [] →
      ∃ w, check_required_information raw = .ok w
        ∧ "WARNING: No loadcase has definded in the model".toList ∈ w)
    ∧ (∀ raw : RawStdDoc, raw.materials = [] →
      (raw.member_incidences ≠ [] ∨ raw.element_incidences_shell ≠ []) →
      check_required_information raw
        = .error (.notImplemented "ERROR: No material has definded in the model".toList)) := by
  refine ⟨?_, ?_, ?_⟩
  · intro raw hm hp
    unfold check_required_information
    by_cases hmat : raw.materials = []
    · exact ⟨_, by rw [if_pos hmat]⟩
    · exact ⟨_, by rw [if_neg hmat, if_pos ⟨hp, hm⟩]⟩
  · intro raw hmat hmp hep hlc
    unfold check_required_information
    rw [if_neg hmat,
      if_neg (by rintro ⟨h1, h2⟩; rcases hmp with h | h; exact h h1; exact h2 h),
      if_neg (by rintro ⟨h1, h2⟩; rcases hep with h | h; exact h h1; exact h2 h),
      if_pos hlc]
    refine ⟨_, rfl, ?_⟩
    refine List.mem_append.mpr (Or.inl (List.mem_append.mpr (Or.inr ?_)))
    exact List.mem_singleton_self _
  · intro raw hmat _
    unfold check_required_information
    rw [if_pos hmat]

/-- Concrete instances of the three C5 cases. -/
theorem C5_completeness_witness :
    (∃ e, check_required_information
      { direction := "Y".toList, joint_coordinates := [(1, ((0 : ℚ), (0 : ℚ), (0 : ℚ)))],
        member_incidences := [(1, ⟨1, 1, none, none⟩)], element_incidences_shell := [],
        materials := [], member_properties := [], element_properties := [],
        supports := [], primary_loadcases := [], load_combinations := [] } = .error e)
    ∧ (∃ w, check_required_information
      { direction := "Y".toList, joint_coordinates := [],
        member_incidences := [], element_incidences_shell := [],
        materials := [("STEEL".toList,
          ⟨"STEEL".toList, none, none, none, none, none, none, none, "isotropic".toList⟩)],
        member_properties := [], element_properties := [],
        supports := [], primary_loadcases := [], load_combinations := [] } = .ok w
      ∧ "WARNING: No loadcase has definded in the model".toList ∈ w)
    ∧ check_required_information
      { direction := "Y".toList, joint_coordinates := [],
        member_incidences := [(1, ⟨1, 1, none, none⟩)], element_incidences_shell := [],
        materials := [], member_properties := [(1, "X".toList)], element_properties := [],
        supports := [], primary_loadcases := [], load_combinations := [] }
        = .error (.notImplemented "ERROR: No material has definded in the model".toList) := by
  refine ⟨?_, ?_, ?_⟩
  · exact C5_completeness.1 _ (by decide) (by decide)
  · exact C5_completeness.2.1 _ (by decide) (by decide) (by decide) (by decide)
  · exact C5_completeness.2.2 _ (by decide) (by decide)

/-- C2: converting `exDocC2` maps the joint (1, 2, 3) to (1, -3, 2) as
claimed, and relabels the GZ member load as GY — but leaves its magnitude at
10 instead of -10, because the source's sign flip is a comparison (`==`)
rather than an assignment.  The claim's magnitude clause fails on the code. -/
theorem C2_convert_direction_bug :
    convert_direction exDocC2
      = .ok { exDocC2 with
          direction := "Z".toList,
          joint_coordinates := [(1, ((1 : ℚ), (-3 : ℚ), (2 : ℚ)))],
          primary_loadcases := [("1".toList,
            { load_type := "Live".toList, load_name := "LC1".toList,
              load_items := [("MEMBER LOAD".toList,
                [(1, { load_type := some "uniform_force".toList,
                       direction := some "GY".toList, force := some (10 : ℚ),
                       FX := none, FY := none, FZ := none, MX := none, MY := none,
                       MZ := none, assigned_members := [1] })])] })] }
    ∧ (10 : ℚ) ≠ (-10 : ℚ) := by
  constructor
  · rfl
  · decide

/-- C9: converting `exDocC9` leaves every JOINT LOAD and SUPPORT DISPLACEMENT
LOAD component exactly as it was (only the direction tag changes to Z): the
JOINT LOAD branch assigns the swapped dictionary to a rebound local variable,
and SUPPORT DISPLACEMENT LOAD has no branch at all.  The claimed swap
(new FY = -old FZ, etc.) does not happen: FY stays 2 while the claim requires
-3. -/
theorem C9_joint_load_bug :
    convert_direction exDocC9 = .ok { exDocC9 with direction := "Z".toList }
    ∧ (2 : ℚ) ≠ (-3 : ℚ) := by
  constructor
  · rfl
  · decide

/-- Unfolding equation of `foldMatLines` on a cons cell. -/
theorem foldMatLines_cons (factor : ℚ) (m : MaterialRec) (l : PyStr) (rest : List PyStr) :
    foldMatLines factor m (l :: rest)
      = match get_materialLine factor m l with
        | .ok m2 => foldMatLines factor m2 rest
        | .error e => .error e := rfl

/-- Unfolding equation of `get_materialBlocks` on a cons cell. -/
theorem get_materialBlocks_cons (factor : ℚ) (fuel : ℕ)
    (acc : List (PyStr × MaterialRec)) (l : PyStr) (rest : List PyStr) :
    get_materialBlocks factor (fuel + 1) acc (l :: rest)
      = if hasSub "ISOTROPIC".toList l then
          match (splitSpace l).get? 1 with
          | none => .error .indexErr
          | some name =>
            match foldMatLines factor
                ⟨name, none, none, none, none, none, none, none, "isotropic".toList⟩
                (l :: rest.takeWhile (fun x => !hasSub "ISOTROPIC".toList x)) with
            | .error .valueErr => .ok acc
            | .error e => .error e
            | .ok mrec =>
              get_materialBlocks factor fuel (acc ++ [(name, mrec)])
                (rest.drop (rest.takeWhile (fun x => !hasSub "ISOTROPIC".toList x)).length)
        else get_materialBlocks factor fuel acc rest := rfl

/-- C8: an ISOTROPIC material block decoded under force factor 1000 (declared
unit KN) stores `youngs_modulus` as the file's E value times 1000 and
`mass_density` as the file's DENSITY value times 1000 divided by the
gravitational constant 9.81. -/
theorem C8_material_decode (iline eline dline name etok dtok : PyStr) (ev dv : ℚ)
    (hIso : hasSub "ISOTROPIC".toList iline = true)
    (hIsoE : hasSub "ISOTROPIC".toList eline = false)
    (hIsoD : hasSub "ISOTROPIC".toList dline = false)
    (hsI : splitSpace iline = ["ISOTROPIC".toList, name])
    (hsE : splitSpace eline = ["E".toList, etok])
    (hsD : splitSpace dline = ["DENSITY".toList, dtok])
    (hev : pyFloat etok = some ev) (hdv : pyFloat dtok = some dv) :
    get_material ["DEFINE MATERIAL START".toList, iline, eline, dline,
        "END DEFINE MATERIAL".toList] 1000
      = .ok [(name, ⟨name, some (ev * 1000), none, some (dv * 1000 / (981 / 100)),
          none, none, none, none, "isotropic".toList⟩)] := by
  have hsEnd : splitSpace "END DEFINE MATERIAL".toList
      = ["END".toList, "DEFINE".toList, "MATERIAL".toList] := by decide
  have hneI : iline ≠ "END DEFINE MATERIAL".toList := by
    intro h
    rw [h] at hIso
    exact absurd hIso (by decide)
  have hneE : eline ≠ "END DEFINE MATERIAL".toList := by
    intro h
    rw [h, hsEnd] at hsE
    injection hsE with h1 _
    exact absurd h1 (by decide)
  have hneD : dline ≠ "END DEFINE MATERIAL".toList := by
    intro h
    rw [h, hsEnd] at hsD
    injection hsD with h1 _
    exact absurd h1 (by decide)
  have hidx1 : pyIndex "DEFINE MATERIAL START".toList
      ["DEFINE MATERIAL START".toList, iline, eline, dline,
        "END DEFINE MATERIAL".toList] = some 0 := by
    rw [pyIndex, if_pos rfl]
  have hidx2 : pyIndex "END DEFINE MATERIAL".toList
      ["DEFINE MATERIAL START".toList, iline, eline, dline,
        "END DEFINE MATERIAL".toList] = some 4 := by
    rw [pyIndex, if_neg (by decide), pyIndex, if_neg hneI, pyIndex, if_neg hneE,
      pyIndex, if_neg hneD, pyIndex, if_pos rfl]
    rfl
  have hline1 : get_materialLine 1000
      ⟨name, none, none, none, none, none, none, none, "isotropic".toList⟩ iline
      = .ok ⟨name, none, none, none, none, none, none, none, "isotropic".toList⟩ := by
    simp +decide [get_materialLine, hsI]
  have hline2 : get_materialLine 1000
      ⟨name, none, none, none, none, none, none, none, "isotropic".toList⟩ eline
      = .ok ⟨name, some (ev * 1000), none, none, none, none, none, none,
          "isotropic".toList⟩ := by
    simp +decide [get_materialLine, hsE, floatTok, hev]
  have hline3 : get_materialLine 1000
      ⟨name, some (ev * 1000), none, none, none, none, none, none, "isotropic".toList⟩ dline
      = .ok ⟨name, some (ev * 1000), none, some (dv * 1000 / (981 / 100)), none, none,
          none, none, "isotropic".toList⟩ := by
    simp +decide [get_materialLine, hsD, floatTok, hdv]
  have hline4 : get_materialLine 1000
      ⟨name, some (ev * 1000), none, some (dv * 1000 / (981 / 100)), none, none,
          none, none, "isotropic".toList⟩ "END DEFINE MATERIAL".toList
      = .ok ⟨name, some (ev * 1000), none, some (dv * 1000 / (981 / 100)), none, none,
          none, none, "isotropic".toList⟩ := by
    simp +decide [get_materialLine, hsEnd]
  have hblock : List.takeWhile (fun x => !hasSub "ISOTROPIC".toList x)
      [eline, dline, "END DEFINE MATERIAL".toList]
      = [eline, dline, "END DEFINE MATERIAL".toList] := by
    simp only [List.takeWhile_cons, hIsoE, hIsoD,
      show hasSub "ISOTROPIC".toList "END DEFINE MATERIAL".toList = false from by decide,
      Bool.not_false, if_true, List.takeWhile_nil]
  have hfold : foldMatLines 1000
      ⟨name, none, none, none, none, none, none, none, "isotropic".toList⟩
      [iline, eline, dline, "END DEFINE MATERIAL".toList]
      = .ok ⟨name, some (ev * 1000), none, some (dv * 1000 / (981 / 100)), none, none,
          none, none, "isotropic".toList⟩ := by
    rw [foldMatLines_cons, hline1]
    dsimp only
    rw [foldMatLines_cons, hline2]
    dsimp only
    rw [foldMatLines_cons, hline3]
    dsimp only
    rw [foldMatLines_cons, hline4]
    rfl
  unfold get_material
  rw [hidx1, hidx2]
  show get_materialBlocks 1000 6 []
      ["DEFINE MATERIAL START".toList, iline, eline, dline,
        "END DEFINE MATERIAL".toList] = _
  rw [show get_materialBlocks 1000 6 []
        ["DEFINE MATERIAL START".toList, iline, eline, dline,
          "END DEFINE MATERIAL".toList]
      = get_materialBlocks 1000 5 []
        [iline, eline, dline, "END DEFINE MATERIAL".toList] from rfl]
  rw [show (5 : ℕ) = 4 + 1 from rfl, get_materialBlocks_cons, if_pos hIso]
  rw [show (splitSpace iline).get? 1 = some name from by rw [hsI]; rfl]
  dsimp only
  rw [hblock, hfold]
  rfl

/-- Concrete instance of C8: an ISOTROPIC STEEL block with E 2.1e8 under
force unit KN stores a Young's modulus of 2.1e11, and a DENSITY equal to the
gravitational constant stores a mass density of exactly 1000. -/
theorem C8_material_decode_witness :
    get_material ["DEFINE MATERIAL START".toList, "ISOTROPIC STEEL".toList,
        "E 2.1e8".toList, "DENSITY 9.81".toList, "END DEFINE MATERIAL".toList] 1000
      = .ok [("STEEL".toList, ⟨"STEEL".toList,
          some ((pyFloat "2.1e8".toList).getD 0 * 1000), none,
          some ((pyFloat "9.81".toList).getD 0 * 1000 / (981 / 100)),
          none, none, none, none, "isotropic".toList⟩)]
    ∧ (pyFloat "2.1e8".toList).getD 0 * 1000 = (210000000000 : ℚ)
    ∧ (pyFloat "9.81".toList).getD 0 * 1000 / (981 / 100) = (1000 : ℚ) := by
  refine ⟨?_, ?_, ?_⟩
  · exact C8_material_decode "ISOTROPIC STEEL".toList "E 2.1e8".toList
      "DENSITY 9.81".toList "STEEL".toList "2.1e8".toList "9.81".toList
      ((pyFloat "2.1e8".toList).getD 0) ((pyFloat "9.81".toList).getD 0)
      (by decide) (by decide) (by decide) (by decide) (by decide) (by decide) rfl rfl
  · have h : (pyFloat "2.1e8".toList).getD 0
        = ((1 : ℤ) : ℚ) * (((2 : ℕ) : ℚ) + ((1 : ℕ) : ℚ) / (10 : ℚ) ^ (1 : ℕ))
          * (10 : ℚ) ^ ((1 : ℤ) * ((8 : ℕ) : ℤ)) := rfl
    rw [h]
    norm_num
  · have h : (pyFloat "9.81".toList).getD 0
        = ((1 : ℤ) : ℚ) * (((9 : ℕ) : ℚ) + ((81 : ℕ) : ℚ) / (10 : ℚ) ^ (2 : ℕ)) := rfl
    rw [h]
    norm_num

/-- Lookup after a dict store: the stored key yields the new value, others are
unchanged. -/
theorem dictGet_insert (k : ℕ) (v : PyStr) :
    ∀ (d : List (ℕ × PyStr)) (k' : ℕ),
      dictGet (dictInsert d k v) k' = if k = k' then some v else dictGet d k' := by
  intro d
  induction d with
  | nil =>
    intro k'
    by_cases h : k = k' <;> simp [dictInsert, dictGet, h]
  | cons kv rest ih =>
    intro k'
    by_cases h1 : kv.1 = k
    · rw [dictInsert, if_pos h1]
      by_cases h2 : k = k'
      · rw [dictGet, if_pos (h1.trans h2), if_pos h2]
      · rw [dictGet, if_neg (fun hh => h2 (h1 ▸ hh)), if_neg h2, dictGet,
          if_neg (fun hh => h2 (h1 ▸ hh))]
    · rw [dictInsert, if_neg h1]
      by_cases h2 : kv.1 = k'
      · have hk : k ≠ k' := fun hh => h1 (h2.trans hh.symm)
        rw [dictGet, if_pos h2, if_neg hk, dictGet, if_pos h2]
      · rw [dictGet, if_neg h2, ih, dictGet, if_neg h2]

/-- Key membership after a dict store. -/
theorem mem_keys_insert (k : ℕ) (v : PyStr) :
    ∀ (d : List (ℕ × PyStr)) (k' : ℕ),
      (k' ∈ (dictInsert d k v).map (fun p => p.1)
        ↔ k' ∈ d.map (fun p => p.1) ∨ k' = k) := by
  intro d
  induction d with
  | nil =>
    intro k'
    simp [dictInsert]
  | cons kv rest ih =>
    intro k'
    by_cases h1 : kv.1 = k
    · rw [dictInsert, if_pos h1]
      subst h1
      simp
      tauto
    · rw [dictInsert, if_neg h1]
      simp only [List.map_cons, List.mem_cons, ih]
      tauto

/-- A dict store preserves key distinctness. -/
theorem nodup_keys_insert (k : ℕ) (v : PyStr) :
    ∀ d : List (ℕ × PyStr),
      (d.map (fun p => p.1)).Nodup → ((dictInsert d k v).map (fun p => p.1)).Nodup := by
  intro d
  induction d with
  | nil =>
    intro _
    simp [dictInsert]
  | cons kv rest ih =>
    intro hnd
    rw [List.map_cons, List.nodup_cons] at hnd
    by_cases h1 : kv.1 = k
    · rw [dictInsert, if_pos h1, List.map_cons, List.nodup_cons]
      exact hnd
    · rw [dictInsert, if_neg h1, List.map_cons, List.nodup_cons]
      refine ⟨?_, ih hnd.2⟩
      intro hmem
      rcases (mem_keys_insert k v rest kv.1).mp hmem with h | h
      · exact hnd.1 h
      · exact h1 h

/-- Decomposition of `lastFor` over a cons cell: a later occurrence wins. -/
theorem lastFor_cons (item : PyStr) (rest : List PyStr) (k : ℕ) :
    lastFor (item :: rest) k
      = ((lastFor rest k).orElse
          (fun _ => if keyOf item == some k then some item else none)) := by
  unfold lastFor
  rw [List.filter_cons]
  by_cases hk : (keyOf item == some k) = true
  · rw [if_pos hk, hk]
    cases hfr : List.filter (fun it => keyOf it == some k) rest with
    | nil => rfl
    | cons x xs =>
      rw [List.getLast?_cons_cons]
      cases hgl : (x :: xs).getLast? with
      | none =>
        obtain ⟨p, hp, -⟩ := getLastQ_isSome (show x :: xs ≠ [] by simp)
        rw [hgl] at hp
        exact Option.noConfusion hp
      | some p => rfl
  · have hk2 : (keyOf item == some k) = false := by
      revert hk
      cases (keyOf item == some k) <;> simp
    rw [if_neg hk, hk2]
    cases hgl : (List.filter (fun it => keyOf it == some k) rest).getLast? <;> rfl

/-- Dictionary built by `buildRef`: each key maps to the last record carrying
it, falling back to the initial dictionary. -/
theorem buildRef_get :
    ∀ (sl : List PyStr) (d d' : List (ℕ × PyStr)), buildRef d sl = some d' →
      ∀ k, dictGet d' k
        = (lastFor sl k).orElse (fun _ => dictGet d k) := by
  intro sl
  induction sl with
  | nil =>
    intro d d' h k
    cases h
    have hlf : lastFor ([] : List PyStr) k = none := rfl
    rw [hlf]
    rfl
  | cons item rest ih =>
    intro d d' h k
    rw [buildRef] at h
    cases hko : keyOf item with
    | none =>
      rw [hko] at h
      exact Option.noConfusion h
    | some k0 =>
      rw [hko] at h
      have hrec := ih (dictInsert d k0 item) d' h k
      rw [hrec, lastFor_cons, hko]
      cases hlf : lastFor rest k with
      | some it => rfl
      | none =>
        dsimp only [Option.orElse]
        rw [dictGet_insert]
        by_cases hkk : k0 = k
        · rw [if_pos hkk, if_pos (by rw [hkk]; exact beq_self_eq_true _)]
        · rw [if_neg hkk,
            if_neg (by simp only [beq_iff_eq, Option.some.injEq]; exact hkk)]

/-- Keys of the dictionary built by `buildRef`: distinct, and exactly the
leading ids occurring in the input. -/
theorem buildRef_keys :
    ∀ (sl : List PyStr) (d d' : List (ℕ × PyStr)), buildRef d sl = some d' →
      ((d.map (fun p => p.1)).Nodup → (d'.map (fun p => p.1)).Nodup)
      ∧ (∀ k, k ∈ d'.map (fun p => p.1)
          ↔ k ∈ d.map (fun p => p.1) ∨ ∃ item ∈ sl, keyOf item = some k) := by
  intro sl
  induction sl with
  | nil =>
    intro d d' h
    cases h
    exact ⟨id, fun k => by simp⟩
  | cons item rest ih =>
    intro d d' h
    rw [buildRef] at h
    cases hko : keyOf item with
    | none =>
      rw [hko] at h
      exact Option.noConfusion h
    | some k0 =>
      rw [hko] at h
      obtain ⟨ihn, ihm⟩ := ih (dictInsert d k0 item) d' h
      constructor
      · intro hnd
        exact ihn (nodup_keys_insert k0 item d hnd)
      · intro k
        rw [ihm k, mem_keys_insert]
        constructor
        · rintro ((hd | hk) | ⟨it, hit, hkit⟩)
          · exact Or.inl hd
          · exact Or.inr ⟨item, List.mem_cons_self _ _, by rw [hko, hk]⟩
          · exact Or.inr ⟨it, List.mem_cons_of_mem _ hit, hkit⟩
        · rintro (hd | ⟨it, hit, hkit⟩)
          · exact Or.inl (Or.inl hd)
          · rcases List.mem_cons.mp hit with rfl | hit2
            · refine Or.inl (Or.inr ?_)
              rw [hko] at hkit
              exact (Option.some.inj hkit).symm
            · exact Or.inr ⟨it, hit2, hkit⟩

/-- Congruence for `filterMap` under pointwise equal functions. -/
theorem filterMap_congr_mem {α β : Type} (f g : α → Option β) :
    ∀ l : List α, (∀ x ∈ l, f x = g x) → l.filterMap f = l.filterMap g := by
  intro l
  induction l with
  | nil => intro _; rfl
  | cons a l ih =>
    intro h
    rw [List.filterMap_cons, List.filterMap_cons, h a (List.mem_cons_self _ _),
      ih (fun x hx => h x (List.mem_cons_of_mem _ hx))]

/-- The packing loop always emits at least one line. -/
theorem packLoop_ne_nil (limit : ℕ) :
    ∀ (recs : List PyStr) (i : ℕ) (cur : PyStr), packLoop limit i cur recs ≠ [] := by
  intro recs
  induction recs with
  | nil => intro i cur; simp [packLoop]
  | cons s rest ih =>
    intro i cur
    rw [packLoop]
    by_cases hover : cur.length + s.length > limit
    · rw [if_pos hover]
      simp
    · rw [if_neg hover]
      by_cases hi : i = 0
      · rw [if_pos hi]
        exact ih _ _
      · rw [if_neg hi]
        exact ih _ _

/-- Unfolding of `joinSpace` on a cons with nonempty tail. -/
theorem joinSpace_cons (r : PyStr) (l : List PyStr) (h : l ≠ []) :
    joinSpace (r :: l) = r ++ ' ' :: joinSpace l := by
  cases l with
  | nil => exact absurd rfl h
  | cons x xs => rfl

/-- The packing loop only repartitions: joining its lines with single spaces
gives the records joined with single spaces. -/
theorem packLoop_join (limit : ℕ) :
    ∀ (recs : List PyStr) (cur : PyStr) (i : ℕ), i ≠ 0 →
      joinSpace (packLoop limit i cur recs) = joinSpace (cur :: recs) := by
  intro recs
  induction recs with
  | nil => intro cur i _; rfl
  | cons s rest ih =>
    intro cur i hi
    rw [packLoop]
    by_cases hover : cur.length + s.length > limit
    · rw [if_pos hover,
        joinSpace_cons cur (packLoop limit (i + 1) s rest)
          (packLoop_ne_nil limit rest (i + 1) s),
        ih s (i + 1) (by omega), joinSpace_cons cur (s :: rest) (by simp)]
    · rw [if_neg hover, if_neg hi, ih _ (i + 1) (by omega)]
      cases rest with
      | nil => rfl
      | cons r2 rs =>
        rw [joinSpace_cons (cur ++ ' ' :: s) (r2 :: rs) (by simp),
          joinSpace_cons cur (s :: r2 :: rs) (by simp),
          joinSpace_cons s (r2 :: rs) (by simp)]
        simp

/-- Every line the packing loop emits has length at most the limit plus one
(the separating space is not counted by the source's limit test). -/
theorem packLoop_bound (limit : ℕ) :
    ∀ (recs : List PyStr) (cur : PyStr) (i : ℕ), cur.length ≤ limit + 1 →
      (∀ r ∈ recs, r.length ≤ limit) →
      ∀ row ∈ packLoop limit i cur recs, row.length ≤ limit + 1 := by
  intro recs
  induction recs with
  | nil =>
    intro cur i hcur _ row hrow
    rcases List.mem_singleton.mp hrow with rfl
    exact hcur
  | cons s rest ih =>
    intro cur i hcur hrecs row hrow
    have hs : s.length ≤ limit := hrecs s (List.mem_cons_self _ _)
    have hrest : ∀ r ∈ rest, r.length ≤ limit :=
      fun r hr => hrecs r (List.mem_cons_of_mem _ hr)
    rw [packLoop] at hrow
    by_cases hover : cur.length + s.length > limit
    · rw [if_pos hover] at hrow
      rcases List.mem_cons.mp hrow with rfl | hmem
      · exact hcur
      · exact ih s (i + 1) (by omega) hrest row hmem
    · rw [if_neg hover] at hrow
      by_cases hi : i = 0
      · rw [if_pos hi] at hrow
        exact ih (cur ++ s) (i + 1) (by rw [List.length_append]; omega) hrest row hrow
      · rw [if_neg hi] at hrow
        exact ih (cur ++ ' ' :: s) (i + 1)
          (by rw [List.length_append, List.length_cons]; omega) hrest row hrow

/-- C10 counterexample: with column limit 6 the records "1 a" and "2 b" are
packed onto one line of length 7, exceeding the limit, because the source's
limit test ignores the separating space it is about to add. -/
theorem C10_row_pack_counterexample :
    check_row_length 6 ["1 a".toList, "2 b".toList] = .ok ["1 a 2 b".toList]
    ∧ ("1 a 2 b".toList).length > 6 := by
  decide

/-- C10 amended: on success, with every deduplicated record fitting in the
limit, the output of `check_row_length` joins back to exactly the deduplicated
records (one per leading id, last occurrence kept, ascending id order) joined
with single spaces, and every emitted line has length at most limit + 1: a new
line starts when the current length plus the record length, not counting the
separating space, would exceed the limit. -/
theorem C10_row_pack_amended (limit : ℕ) (sl : List PyStr) (out : List PyStr)
    (h : check_row_length limit sl = .ok out)
    (hfit : ∀ r ∈ specRecords sl, r.length ≤ limit) :
    joinSpace out = joinSpace (specRecords sl)
    ∧ ∀ row ∈ out, row.length ≤ limit + 1 := by
  unfold check_row_length at h
  cases hbuild : buildRef [] sl with
  | none =>
    rw [hbuild] at h
    exact absurd h (by simp)
  | some d =>
    rw [hbuild] at h
    have hout : out = packLoop limit 0 []
        ((sortNat (d.map (fun p => p.1))).filterMap (fun k => dictGet d k)) := by
      cases h
      rfl
    have hgetEq : ∀ k, dictGet d k = lastFor sl k := by
      intro k
      rw [buildRef_get sl [] d hbuild k]
      cases hl : lastFor sl k
      · rfl
      · rfl
    obtain ⟨hnodup, hmem⟩ := buildRef_keys sl [] d hbuild
    haveI instTot : IsTotal ℕ (fun a b : ℕ => a ≤ b) := ⟨fun a b => Nat.le_total a b⟩
    haveI instTrans : IsTrans ℕ (fun a b : ℕ => a ≤ b) :=
      ⟨fun _ _ _ hab hbc => Nat.le_trans hab hbc⟩
    haveI instAnti : IsAntisymm ℕ (fun a b : ℕ => a ≤ b) :=
      ⟨fun _ _ hab hba => Nat.le_antisymm hab hba⟩
    have hperm : (d.map (fun p => p.1)).Perm ((sl.filterMap keyOf).dedup) := by
      apply (List.perm_ext_iff_of_nodup (hnodup (by simp)) (List.nodup_dedup _)).mpr
      intro a
      rw [hmem a, List.mem_dedup, List.mem_filterMap]
      simp
    have hsorteq : sortNat (d.map (fun p => p.1))
        = sortNat ((sl.filterMap keyOf).dedup) := by
      have hs1 := List.sorted_insertionSort (fun a b : ℕ => a ≤ b)
        (d.map (fun p => p.1))
      have hs2 := List.sorted_insertionSort (fun a b : ℕ => a ≤ b)
        ((sl.filterMap keyOf).dedup)
      exact List.eq_of_perm_of_sorted
        (((List.perm_insertionSort _ _).trans hperm).trans
          (List.perm_insertionSort _ _).symm) hs1 hs2
    have hfm : (sortNat (d.map (fun p => p.1))).filterMap (fun k => dictGet d k)
        = specRecords sl := by
      rw [filterMap_congr_mem (fun k => dictGet d k) (lastFor sl) _
        (fun x _ => hgetEq x), hsorteq]
      rfl
    rw [hout, hfm]
    constructor
    · cases hsr : specRecords sl with
      | nil => rfl
      | cons s rest =>
        have hs : s.length ≤ limit := hfit s (by rw [hsr]; exact List.mem_cons_self _ _)
        rw [packLoop,
          if_neg (by rw [List.length_nil]; omega), if_pos rfl, List.nil_append]
        exact packLoop_join limit rest s 1 (by omega)
    · intro row hrow
      refine packLoop_bound limit (specRecords sl) [] 0 (by simp) hfit row hrow

/-- Concrete instance of the amended C10 statement: duplicate leading id 1 is
resolved to the last occurrence and the records come out id-sorted. -/
theorem C10_row_pack_amended_witness :
    joinSpace ["1 c 2 b".toList]
      = joinSpace (specRecords ["2 b".toList, "1 a".toList, "1 c".toList])
    ∧ ∀ row ∈ ["1 c 2 b".toList], row.length ≤ 6 + 1 :=
  C10_row_pack_amended 6 ["2 b".toList, "1 a".toList, "1 c".toList]
    ["1 c 2 b".toList] (by decide) (by decide)
